import Mathlib

/-!
Shallow embedding of `crates/bevy_winit/src/accessibility.rs`: the per-window
accessibility adapter/handler registries and the action-request pump.

Modelling conventions:
* `Entity` (a window id) is a `Nat`.
* `EntityHashMap β` is an association list with hash-map semantics:
  `mapInsert` replaces the value in place when the key is present and appends
  otherwise; `mapRemove` deletes the entry; a list represents a hash map only
  when its keys are pairwise distinct (`keyNodup`).
* `std::sync::Mutex` is a value together with a poison flag; `Mutex.lock`
  returns `Except`, and `.unwrap()` on its error case is a panic, modelled by
  propagating `none` through `Option`.
* The `ActionRequest` payload type is a type parameter `α`: the module never
  inspects requests, it only moves them.
-/

set_option autoImplicit false

namespace BevyWinitAccessibility

universe u

variable {α : Type u} {β : Type u} {γ : Type u}

/-- Window entities (`bevy_ecs::entity::Entity`) modelled as naturals. -/
abbrev Entity := Nat

/-- Association-list model of `EntityHashMap`. -/
abbrev EntityHashMap (β : Type u) := List (Entity × β)

/-- `HashMap::insert`: replace in place if the key is present, append otherwise. -/
def mapInsert : EntityHashMap β → Entity → β → EntityHashMap β
  | [], k, v => [(k, v)]
  | (k', v') :: rest, k, v =>
      if k' = k then (k, v) :: rest else (k', v') :: mapInsert rest k v

/-- `HashMap::remove`: delete the entry with the given key, if present. -/
def mapRemove : EntityHashMap β → Entity → EntityHashMap β
  | [], _ => []
  | (k', v') :: rest, k =>
      if k' = k then rest else (k', v') :: mapRemove rest k

/-- `HashMap::get`: the value stored at a key. -/
def mapGet : EntityHashMap β → Entity → Option β
  | [], _ => none
  | (k', v') :: rest, k => if k' = k then some v' else mapGet rest k

/-- Key list of a map, in iteration order. -/
def mapKeys (m : EntityHashMap β) : List Entity := m.map Prod.fst

/-- `HashMap::contains_key`. -/
def keyMem (m : EntityHashMap β) (k : Entity) : Bool := (mapKeys m).contains k

/-- Well-formedness of the association-list model: keys pairwise distinct,
as they always are in a real hash map. -/
def keyNodup (m : EntityHashMap β) : Bool := (mapKeys m).Nodup |> decide

/-- `std::sync::Mutex<T>`: the guarded value plus its poison flag. -/
structure Mutex (α : Type u) : Type u where
  poisoned : Bool
  val : α

/-- `Mutex::new`. -/
def Mutex.new (a : α) : Mutex α := ⟨false, a⟩

/-- `Mutex::lock`: `Err(PoisonError)` when the mutex is poisoned. -/
def Mutex.lock (m : Mutex α) : Except Unit α :=
  if m.poisoned then Except.error () else Except.ok m.val

/-- `AccessKitAdapters`: maps window entities to their adapters (a unit
placeholder in the source: `EntityHashMap<()>`). -/
abbrev AccessKitAdapters := EntityHashMap Unit

/-- `WinitActionRequestHandler`: a `VecDeque<ActionRequest>`, front at the head. -/
abbrev WinitActionRequestHandler (α : Type u) := List α

/-- `WinitActionRequestHandlers`: maps window entities to
`Arc<Mutex<WinitActionRequestHandler>>`. -/
abbrev WinitActionRequestHandlers (α : Type u) :=
  EntityHashMap (Mutex (WinitActionRequestHandler α))

/-- `WinitActionRequestHandler::new()`: `Arc::new(Mutex::new(Self(VecDeque::new())))`. -/
def WinitActionRequestHandler.new : Mutex (WinitActionRequestHandler α) :=
  Mutex.new []

/-- `bevy_a11y::ActionRequest` wrapper struct (`ActionRequestWrapper`). -/
structure ActionRequestWrapper (α : Type u) : Type u where
  req : α

/-- Modelled from the spec: the producer side `enqueue(req)` (§4.1, "append at
tail") performed by the winit callback, which lives outside this source file;
on a `VecDeque` it is `push_back`. -/
def enqueueReq (q : WinitActionRequestHandler α) (a : α) :
    WinitActionRequestHandler α := q ++ [a]

/-- `prepare_accessibility_for_window`: builds a fresh handler, then inserts a
unit adapter and the handler under the window entity. The winit window, name
and accessibility-requested arguments are received but unused (underscore
parameters in the source). -/
def prepare_accessibility_for_window {W : Type u}
    (winitWindow : W) (entity : Entity) (name : String)
    (accessibilityRequested : Bool)
    (adapters : AccessKitAdapters) (handlers : WinitActionRequestHandlers α) :
    AccessKitAdapters × WinitActionRequestHandlers α :=
  let _ := winitWindow
  let _ := name
  let _ := accessibilityRequested
  let actionRequestHandler := WinitActionRequestHandler.new
  (mapInsert adapters entity (), mapInsert handlers entity actionRequestHandler)

/-- `window_closed`: for each `WindowClosed { window, .. }` event, remove the
window from both registries. -/
def window_closed (adapters : AccessKitAdapters)
    (handlers : WinitActionRequestHandlers α) :
    List Entity → AccessKitAdapters × WinitActionRequestHandlers α
  | [] => (adapters, handlers)
  | w :: rest => window_closed (mapRemove adapters w) (mapRemove handlers w) rest

/-- The inner loop of `poll_receivers`:
`while let Some(event) = handler.pop_front() { actions.send(ActionRequestWrapper(event)) }`.
Returns the events sent, in order, and the emptied queue. -/
def drainQueueEvents : WinitActionRequestHandler α →
    List (ActionRequestWrapper α) × WinitActionRequestHandler α
  | [] => ([], [])
  | e :: rest =>
      let (evs, q) := drainQueueEvents rest
      (ActionRequestWrapper.mk e :: evs, q)

/-- `poll_receivers`: iterate the handler registry; for each entry
`handler.lock().unwrap()` (panic — `none` — if the mutex is poisoned), then
pop every pending request and send it wrapped. Returns the events written to
the `ActionRequestWrapper` event stream and the registry contents afterwards. -/
def poll_receivers : WinitActionRequestHandlers α →
    Option (List (ActionRequestWrapper α) × WinitActionRequestHandlers α)
  | [] => some ([], [])
  | (id, m) :: rest =>
      match Mutex.lock m with
      | Except.error _ => none
      | Except.ok q =>
          let (evs, q') := drainQueueEvents q
          match poll_receivers rest with
          | none => none
          | some (evsRest, rest') =>
              some (evs ++ evsRest, (id, ⟨m.poisoned, q'⟩) :: rest')

/-- `should_update_accessibility_nodes`:
`accessibility_requested.get() && manage_accessibility_updates.get()`. -/
def should_update_accessibility_nodes
    (accessibilityRequested manageAccessibilityUpdates : Bool) : Bool :=
  accessibilityRequested && manageAccessibilityUpdates

/-- `update_accessibility_nodes`: the source body is empty, so every argument
is returned unchanged. `F`, `P`, `N`, `NE` stand for the focus resource, the
primary-window query, the accessibility-node query and the node-entity query. -/
def update_accessibility_nodes {F P N NE : Type u}
    (adapters : AccessKitAdapters) (focus : F) (primaryWindow : P)
    (nodes : N) (nodeEntities : NE) :
    AccessKitAdapters × F × P × N × NE :=
  (adapters, focus, primaryWindow, nodes, nodeEntities)

/-- The three systems `AccessKitPlugin::build` adds to the `PostUpdate`
schedule. -/
inductive SystemId : Type where
  | pollReceivers
  | updateAccessibilityNodes
  | windowClosed
deriving DecidableEq, Repr

/-- The ordering constraints declared in `AccessKitPlugin::build`:
`window_closed.before(poll_receivers).before(update_accessibility_nodes)`. -/
def buildOrderConstraints : List (SystemId × SystemId) :=
  [(SystemId.windowClosed, SystemId.pollReceivers),
   (SystemId.windowClosed, SystemId.updateAccessibilityNodes)]

/-- The systems registered in `AccessKitPlugin::build`, in declaration order. -/
def buildSystems : List SystemId :=
  [SystemId.pollReceivers, SystemId.updateAccessibilityNodes,
   SystemId.windowClosed]

/-- An execution order is admissible when it runs each registered system once
and satisfies every `before` constraint of `AccessKitPlugin::build`. -/
def validOrder (order : List SystemId) : Bool :=
  buildSystems.all (fun s => order.count s = 1) &&
  order.all (fun s => buildSystems.contains s) &&
  buildOrderConstraints.all (fun c => order.indexOf c.1 < order.indexOf c.2)

/-- The per-frame state the three systems touch: both registries, this frame's
`WindowClosed` events, the `ActionRequestWrapper` events written so far, the
two gating flag resources, and the read-only world data
(`Focus`, the `PrimaryWindow` query, the two node queries). -/
structure FrameState (α F P N NE : Type u) : Type u where
  adapters : AccessKitAdapters
  handlers : WinitActionRequestHandlers α
  closedEvents : List Entity
  emitted : List (ActionRequestWrapper α)
  accessibilityRequested : Bool
  manageAccessibilityUpdates : Bool
  focus : F
  primaryWindow : P
  nodes : N
  nodeEntities : NE

variable {F P N NE : Type u}

/-- The run condition attached to each system in `AccessKitPlugin::build`:
only `update_accessibility_nodes` has one
(`.run_if(should_update_accessibility_nodes)`). -/
def systemRunIf (s : SystemId) (st : FrameState α F P N NE) : Bool :=
  match s with
  | SystemId.updateAccessibilityNodes =>
      should_update_accessibility_nodes
        st.accessibilityRequested st.manageAccessibilityUpdates
  | SystemId.pollReceivers => true
  | SystemId.windowClosed => true

/-- Run one system's body on the frame state; `none` is a panic. -/
def runSystemBody (s : SystemId) (st : FrameState α F P N NE) :
    Option (FrameState α F P N NE) :=
  match s with
  | SystemId.windowClosed =>
      let (a, h) := window_closed st.adapters st.handlers st.closedEvents
      some { st with adapters := a, handlers := h }
  | SystemId.pollReceivers =>
      match poll_receivers st.handlers with
      | none => none
      | some (evs, h) =>
          some { st with handlers := h, emitted := st.emitted ++ evs }
  | SystemId.updateAccessibilityNodes =>
      let (a, f, p, n, ne) :=
        update_accessibility_nodes st.adapters st.focus st.primaryWindow
          st.nodes st.nodeEntities
      some { st with adapters := a, focus := f, primaryWindow := p,
                     nodes := n, nodeEntities := ne }

/-- Run the systems in the given order, skipping a system whose run condition
reads false; returns the final state and the list of systems whose bodies ran,
or `none` if one of them panicked. -/
def runSchedule : List SystemId → FrameState α F P N NE →
    Option (FrameState α F P N NE × List SystemId)
  | [], st => some (st, [])
  | s :: rest, st =>
      if systemRunIf s st then
        match runSystemBody s st with
        | none => none
        | some st' =>
            match runSchedule rest st' with
            | none => none
            | some (st'', ran) => some (st'', s :: ran)
      else runSchedule rest st

/-- Lifecycle operations on the registry pair: the window-preparation entry
point and a `WindowClosed` signal. -/
inductive RegistryOp (W : Type u) : Type u where
  | prepare (winitWindow : W) (entity : Entity) (name : String)
      (accessibilityRequested : Bool)
  | close (entity : Entity)

/-- Apply one lifecycle operation to the registry pair. -/
def applyOp {W : Type u} (op : RegistryOp W)
    (s : AccessKitAdapters × WinitActionRequestHandlers α) :
    AccessKitAdapters × WinitActionRequestHandlers α :=
  match op with
  | RegistryOp.prepare w e n r =>
      prepare_accessibility_for_window w e n r s.1 s.2
  | RegistryOp.close e => window_closed s.1 s.2 [e]

/-- Apply a sequence of lifecycle operations, head first. -/
def runOps {W : Type u} : List (RegistryOp W) →
    AccessKitAdapters × WinitActionRequestHandlers α →
    AccessKitAdapters × WinitActionRequestHandlers α
  | [], s => s
  | op :: rest, s => runOps rest (applyOp op s)

/-- One producer/consumer step on a single window's queue: the winit callback
enqueues a request, or the frame's drain empties the queue. -/
inductive QueueOp (α : Type u) : Type u where
  | enqueue (a : α)
  | drain

/-- Run an interleaving of enqueues and drains on one queue, collecting the
concatenation of the event sequences the consumer observes across drains,
and the queue contents left at the end. -/
def runQueueOps : List (QueueOp α) → WinitActionRequestHandler α →
    List (ActionRequestWrapper α) × WinitActionRequestHandler α
  | [], q => ([], q)
  | QueueOp.enqueue a :: rest, q => runQueueOps rest (enqueueReq q a)
  | QueueOp.drain :: rest, q =>
      let (evs, q') := drainQueueEvents q
      let (obs, fin) := runQueueOps rest q'
      (evs ++ obs, fin)

/-- The requests a trace enqueues, in order. -/
def enqueuedReqs : List (QueueOp α) → List α
  | [] => []
  | QueueOp.enqueue a :: rest => a :: enqueuedReqs rest
  | QueueOp.drain :: rest => enqueuedReqs rest

/-- All pending requests of a registry, front-to-back within each queue, in
registry iteration order. -/
def queueContents (hs : WinitActionRequestHandlers α) : List α :=
  (hs.map (fun p => p.2.val)).flatten

/-- Wrap a request list the way `poll_receivers` sends it. -/
def wrapAll (l : List α) : List (ActionRequestWrapper α) :=
  l.map ActionRequestWrapper.mk

/-- The registry with every queue emptied (poison flags preserved). -/
def emptyQueues (hs : WinitActionRequestHandlers α) :
    WinitActionRequestHandlers α :=
  hs.map (fun p => (p.1, ⟨p.2.poisoned, []⟩))

/-- The action of `mapInsert` on the key list alone. -/
def kinsert : List Entity → Entity → List Entity
  | [], k => [k]
  | k' :: rest, k => if k' = k then k :: rest else k' :: kinsert rest k

/-- The action of `mapRemove` on the key list alone. -/
def kremove : List Entity → Entity → List Entity
  | [], _ => []
  | k' :: rest, k => if k' = k then rest else k' :: kremove rest k

/-- A concrete frame state: windows 1 and 2 open with pending requests `5`
and `7`, a `WindowClosed` signal for window 1 pending, both gating flags on. -/
def sampleCloseFrame : FrameState Nat Nat Nat Nat Nat where
  adapters := [(1, ()), (2, ())]
  handlers := [(1, ⟨false, [5]⟩), (2, ⟨false, [7]⟩)]
  closedEvents := [1]
  emitted := []
  accessibilityRequested := true
  manageAccessibilityUpdates := true
  focus := 0
  primaryWindow := 0
  nodes := 0
  nodeEntities := 0

/-- `sampleCloseFrame` after one frame run in close-drain-update order:
window 1 is gone from both registries and only window 2's request `7` was
emitted. -/
def sampleCloseFrameAfter : FrameState Nat Nat Nat Nat Nat where
  adapters := [(2, ())]
  handlers := [(2, ⟨false, []⟩)]
  closedEvents := [1]
  emitted := [⟨7⟩]
  accessibilityRequested := true
  manageAccessibilityUpdates := true
  focus := 0
  primaryWindow := 0
  nodes := 0
  nodeEntities := 0

/-- A concrete frame state: window 1 open with pending request `5`, no close
signals, both gating flags off. -/
def sampleDrainFrame : FrameState Nat Nat Nat Nat Nat where
  adapters := [(1, ())]
  handlers := [(1, ⟨false, [5]⟩)]
  closedEvents := []
  emitted := []
  accessibilityRequested := false
  manageAccessibilityUpdates := false
  focus := 0
  primaryWindow := 0
  nodes := 0
  nodeEntities := 0

/-- `sampleDrainFrame` after the drain system alone: the queue emptied and
request `5` emitted wrapped. -/
def sampleDrainFrameAfter : FrameState Nat Nat Nat Nat Nat where
  adapters := [(1, ())]
  handlers := [(1, ⟨false, []⟩)]
  closedEvents := []
  emitted := [⟨5⟩]
  accessibilityRequested := false
  manageAccessibilityUpdates := false
  focus := 0
  primaryWindow := 0
  nodes := 0
  nodeEntities := 0

/-! ### Basic lemmas about the map and queue models -/

theorem mapKeys_mapInsert (m : EntityHashMap β) (k : Entity) (v : β) :
    mapKeys (mapInsert m k v) = kinsert (mapKeys m) k := by
  induction m with
  | nil => rfl
  | cons p rest ih =>
      obtain ⟨k', v'⟩ := p
      by_cases h : k' = k <;> simp [mapInsert, mapKeys, kinsert, h] at ih ⊢
      exact ih

theorem mapKeys_mapRemove (m : EntityHashMap β) (k : Entity) :
    mapKeys (mapRemove m k) = kremove (mapKeys m) k := by
  induction m with
  | nil => rfl
  | cons p rest ih =>
      obtain ⟨k', v'⟩ := p
      by_cases h : k' = k <;> simp [mapRemove, mapKeys, kremove, h] at ih ⊢
      exact ih

theorem keyMem_eq_contains (m : EntityHashMap β) (k : Entity) :
    keyMem m k = (mapKeys m).contains k := rfl

theorem kremove_contains_of_ne_sub {l : List Entity} {k w : Entity}
    (h : (kremove l k).contains w = true) : l.contains w = true := by
  induction l with
  | nil => simp [kremove] at h
  | cons k' rest ih =>
      by_cases hk : k' = k
      · simp [kremove, hk] at h
        simp [List.contains_cons, h]
      · simp [kremove, hk, List.contains_cons] at h ⊢
        rcases h with h | h
        · exact Or.inl h
        · exact Or.inr (by simpa using ih (by simpa using h))

theorem kremove_self_not_contains {l : List Entity} {k : Entity}
    (h : l.Nodup) : (kremove l k).contains k = false := by
  induction l with
  | nil => rfl
  | cons k' rest ih =>
      rcases List.nodup_cons.mp h with ⟨hk', hrest⟩
      by_cases hk : k' = k
      · subst hk
        simpa [kremove] using by simpa using hk'
      · simp [kremove, hk, List.contains_cons, ih hrest]
        refine ⟨fun hkk => hk hkk.symm, ?_⟩
        simpa using ih hrest

theorem kremove_nodup {l : List Entity} {k : Entity} (h : l.Nodup) :
    (kremove l k).Nodup := by
  induction l with
  | nil => exact h
  | cons k' rest ih =>
      rcases List.nodup_cons.mp h with ⟨hk', hrest⟩
      by_cases hk : k' = k
      · simpa [kremove, hk] using hrest
      · simp only [kremove, if_neg hk]
        refine List.nodup_cons.mpr ⟨fun hmem => hk' ?_, ih hrest⟩
        have hsub := kremove_contains_of_ne_sub (l := rest) (k := k)
          (w := k') (by simpa using hmem)
        simpa using hsub

theorem mapRemove_of_not_mem {m : EntityHashMap β} {k : Entity}
    (h : keyMem m k = false) : mapRemove m k = m := by
  induction m with
  | nil => rfl
  | cons p rest ih =>
      obtain ⟨k', v'⟩ := p
      simp [keyMem, mapKeys, List.contains_cons] at h
      simp [mapRemove, fun hkk : k' = k => h.1 hkk.symm,
        ih (by simp [keyMem, mapKeys, h.2])]
      intro hkk
      exact absurd hkk.symm h.1

theorem drainQueueEvents_eq (q : WinitActionRequestHandler α) :
    drainQueueEvents q = (wrapAll q, []) := by
  induction q with
  | nil => rfl
  | cons e rest ih => simp [drainQueueEvents, wrapAll, ih]

theorem poll_receivers_ok {hs : WinitActionRequestHandlers α}
    (h : ∀ p ∈ hs, p.2.poisoned = false) :
    poll_receivers hs = some (wrapAll (queueContents hs), emptyQueues hs) := by
  induction hs with
  | nil => rfl
  | cons p rest ih =>
      obtain ⟨id, m⟩ := p
      have hm : m.poisoned = false := h (id, m) (by simp)
      have hrest : ∀ q ∈ rest, q.2.poisoned = false :=
        fun q hq => h q (by simp [hq])
      simp [poll_receivers, Mutex.lock, hm, drainQueueEvents_eq, ih hrest,
        queueContents, emptyQueues, wrapAll]

theorem poll_receivers_some {hs hs' : WinitActionRequestHandlers α}
    {evs : List (ActionRequestWrapper α)}
    (h : poll_receivers hs = some (evs, hs')) :
    evs = wrapAll (queueContents hs) ∧ hs' = emptyQueues hs := by
  induction hs generalizing evs hs' with
  | nil =>
      simp [poll_receivers] at h
      obtain ⟨h1, h2⟩ := h
      subst h1; subst h2
      simp [queueContents, emptyQueues, wrapAll]
  | cons p rest ih =>
      obtain ⟨id, m⟩ := p
      by_cases hm : m.poisoned
      · simp [poll_receivers, Mutex.lock, hm] at h
      · simp [poll_receivers, Mutex.lock, hm, drainQueueEvents_eq] at h
        rcases hp : poll_receivers rest with _ | pr
        · rw [hp] at h; simp at h
        · obtain ⟨evsRest, rest'⟩ := pr
          rw [hp] at h
          simp at h
          rcases ih hp with ⟨he, hr⟩
          refine ⟨?_, ?_⟩
          · simp [← h.1, he, queueContents, wrapAll]
          · simp [← h.2, hr, emptyQueues, hm]

theorem poll_receivers_poisoned {hs : WinitActionRequestHandlers α}
    (h : ∃ p ∈ hs, p.2.poisoned = true) :
    poll_receivers hs = none := by
  induction hs with
  | nil => simp at h
  | cons p rest ih =>
      obtain ⟨id, m⟩ := p
      by_cases hm : m.poisoned
      · simp [poll_receivers, Mutex.lock, hm]
      · rcases h with ⟨q, hq, hqp⟩
        rcases List.mem_cons.mp hq with hq | hq
        · rw [hq] at hqp; simp at hqp; exact absurd hqp hm
        · simp [poll_receivers, Mutex.lock, hm, drainQueueEvents_eq,
            ih ⟨q, hq, hqp⟩]

theorem window_closed_keyMem_preserved {α' : Type u}
    {h : WinitActionRequestHandlers α'} {a : AccessKitAdapters} {w : Entity}
    (habs : keyMem h w = false) (evs : List Entity) :
    keyMem (window_closed a h evs).2 w = false := by
  induction evs generalizing a h with
  | nil => exact habs
  | cons e rest ih =>
      refine ih ?_
      rw [keyMem_eq_contains, mapKeys_mapRemove]
      rcases hc : (kremove (mapKeys h) e).contains w with _ | _
      · rfl
      · rw [keyMem_eq_contains] at habs
        rw [kremove_contains_of_ne_sub hc] at habs
        simp at habs

theorem window_closed_nodup {α' : Type u}
    {h : WinitActionRequestHandlers α'} {a : AccessKitAdapters}
    (hnd : keyNodup h = true) (evs : List Entity) :
    keyNodup (window_closed a h evs).2 = true := by
  induction evs generalizing a h with
  | nil => exact hnd
  | cons e rest ih =>
      refine ih ?_
      simp only [keyNodup, mapKeys_mapRemove, decide_eq_true_eq] at hnd ⊢
      exact kremove_nodup hnd

theorem window_closed_removes {α' : Type u}
    {h : WinitActionRequestHandlers α'} {a : AccessKitAdapters} {w : Entity}
    {evs : List Entity} (hnd : keyNodup h = true)
    (hw : evs.contains w = true) :
    keyMem (window_closed a h evs).2 w = false := by
  induction evs generalizing a h with
  | nil => simp at hw
  | cons e rest ih =>
      by_cases he : e = w
      · subst he
        refine window_closed_keyMem_preserved ?_ rest
        rw [keyMem_eq_contains, mapKeys_mapRemove]
        exact kremove_self_not_contains
          (by simpa [keyNodup] using hnd)
      · refine ih ?_ ?_
        · simp only [keyNodup, mapKeys_mapRemove, decide_eq_true_eq] at hnd ⊢
          exact kremove_nodup hnd
        · have hw' := hw
          simp [List.contains_cons] at hw'
          rcases hw' with h1 | h1
          · exact absurd h1.symm he
          · simpa using h1

theorem validOrder_cases (order : List SystemId)
    (h : validOrder order = true) :
    order = [SystemId.windowClosed, SystemId.pollReceivers,
      SystemId.updateAccessibilityNodes] ∨
    order = [SystemId.windowClosed, SystemId.updateAccessibilityNodes,
      SystemId.pollReceivers] := by
  match order with
  | [] => revert h; decide
  | [a] => cases a <;> (revert h; decide)
  | [a, b] => cases a <;> cases b <;> (revert h; decide)
  | [a, b, c] => cases a <;> cases b <;> cases c <;> (revert h; decide)
  | a :: b :: c :: d :: t =>
      exfalso
      cases a <;> cases b <;> cases c <;> cases d <;>
        simp [validOrder, buildSystems, List.count_cons] at h

theorem runSystemBody_update (st : FrameState α F P N NE) :
    runSystemBody SystemId.updateAccessibilityNodes st = some st := rfl

theorem runSystemBody_close (st : FrameState α F P N NE) :
    runSystemBody SystemId.windowClosed st =
      some { st with
        adapters := (window_closed st.adapters st.handlers st.closedEvents).1,
        handlers := (window_closed st.adapters st.handlers st.closedEvents).2 } := by
  simp [runSystemBody]

theorem runSchedule_valid_some {order : List SystemId}
    {st st' : FrameState α F P N NE} {ran : List SystemId}
    (hv : validOrder order = true)
    (h : runSchedule order st = some (st', ran)) :
    ∃ evs h',
      poll_receivers (window_closed st.adapters st.handlers st.closedEvents).2
        = some (evs, h') ∧
      st' = { st with
        adapters := (window_closed st.adapters st.handlers st.closedEvents).1,
        handlers := h',
        emitted := st.emitted ++ evs } ∧
      ran = (if should_update_accessibility_nodes st.accessibilityRequested
                st.manageAccessibilityUpdates
             then order
             else [SystemId.windowClosed, SystemId.pollReceivers]) := by
  rcases validOrder_cases order hv with ho | ho <;> subst ho <;>
    rcases hp : poll_receivers
      (window_closed st.adapters st.handlers st.closedEvents).2
      with _ | ⟨evs, h'⟩ <;>
    by_cases hc : should_update_accessibility_nodes st.accessibilityRequested
      st.manageAccessibilityUpdates <;>
    simp [runSchedule, runSystemBody, systemRunIf, update_accessibility_nodes,
      hp, hc] at h ⊢ <;>
    exact ⟨evs, h', ⟨rfl, rfl⟩, h.1.symm, h.2.symm⟩

theorem enqueuedReqs_append (l1 l2 : List (QueueOp α)) :
    enqueuedReqs (l1 ++ l2) = enqueuedReqs l1 ++ enqueuedReqs l2 := by
  induction l1 with
  | nil => rfl
  | cons op rest ih => cases op <;> simp [enqueuedReqs, ih]

theorem runQueueOps_inv (ops : List (QueueOp α)) :
    ∀ q : WinitActionRequestHandler α,
      (runQueueOps ops q).1 ++ wrapAll (runQueueOps ops q).2 =
        wrapAll q ++ wrapAll (enqueuedReqs ops) := by
  induction ops with
  | nil => intro q; simp [runQueueOps, enqueuedReqs, wrapAll]
  | cons op rest ih =>
      intro q
      cases op with
      | enqueue a =>
          simp only [runQueueOps, enqueuedReqs]
          rw [ih (enqueueReq q a)]
          simp [enqueueReq, wrapAll]
      | drain =>
          simp only [runQueueOps, enqueuedReqs, drainQueueEvents_eq]
          rw [List.append_assoc]
          simp only [ih []]
          simp [wrapAll]

theorem runQueueOps_final_drain_empty (ops : List (QueueOp α)) :
    ∀ q : WinitActionRequestHandler α,
      (runQueueOps (ops ++ [QueueOp.drain]) q).2 = [] := by
  induction ops with
  | nil => intro q; simp [runQueueOps, drainQueueEvents_eq]
  | cons op rest ih =>
      intro q
      cases op with
      | enqueue a => simpa [runQueueOps] using ih (enqueueReq q a)
      | drain =>
          simp only [List.cons_append, runQueueOps, drainQueueEvents_eq]
          exact ih []

theorem mapGet_mapInsert (m : EntityHashMap β) (k : Entity) (v : β) :
    mapGet (mapInsert m k v) k = some v := by
  induction m with
  | nil => simp [mapInsert, mapGet]
  | cons p rest ih =>
      obtain ⟨k', v'⟩ := p
      by_cases h : k' = k <;> simp [mapInsert, mapGet, h, ih]

theorem mapKeys_emptyQueues (hs : WinitActionRequestHandlers α) :
    mapKeys (emptyQueues hs) = mapKeys hs := by
  simp [emptyQueues, mapKeys]

theorem runOps_keys_eq {W : Type u} (ops : List (RegistryOp W))
    (s : AccessKitAdapters × WinitActionRequestHandlers α)
    (h : mapKeys s.1 = mapKeys s.2) :
    mapKeys (runOps ops s).1 = mapKeys (runOps ops s).2 := by
  induction ops generalizing s with
  | nil => exact h
  | cons op rest ih =>
      refine ih _ ?_
      cases op with
      | prepare w e n r =>
          simp [applyOp, prepare_accessibility_for_window,
            mapKeys_mapInsert, h]
      | close e =>
          simp [applyOp, window_closed, mapKeys_mapRemove, h]

/-! ### Claim theorems -/

/-- C1. Registry parity: for every sequence of prepare and window-closed
operations starting from empty registries, after each operation the adapter
registry and the handler registry have identical key sets: every window id is
a key of one iff it is a key of the other. -/
theorem registry_parity {W : Type u} (ops : List (RegistryOp W))
    (w : Entity) :
    keyMem (runOps ops (([], []) :
      AccessKitAdapters × WinitActionRequestHandlers α)).1 w
      = keyMem (runOps ops (([], []) :
      AccessKitAdapters × WinitActionRequestHandlers α)).2 w := by
  rw [keyMem_eq_contains, keyMem_eq_contains,
    runOps_keys_eq ops ([], []) rfl]

/-- C3. Drain completeness: when no queue mutex is poisoned (the only
registry states the data model of the specification describes), one run of
`poll_receivers` emits exactly all pending requests of all registered queues,
wrapped, preserving front-to-back order within each queue and registry
iteration order across queues, and leaves every registered queue empty with
the key list unchanged. -/
theorem drain_completeness (hs : WinitActionRequestHandlers α)
    (h : ∀ p ∈ hs, p.2.poisoned = false) :
    poll_receivers hs = some (wrapAll (queueContents hs), emptyQueues hs) ∧
    mapKeys (emptyQueues hs) = mapKeys hs ∧
    ∀ p ∈ emptyQueues hs, p.2.val = [] := by
  refine ⟨poll_receivers_ok h, mapKeys_emptyQueues hs, ?_⟩
  intro p hp
  rcases List.mem_map.mp hp with ⟨q, _, rfl⟩
  rfl

/-- C4. FIFO per window across drains: for any interleaving of producer
enqueues with consumer drains on one window's queue, ended by a final drain,
the concatenation of the event sequences the consumer observes across all
drains is exactly the enqueued requests, wrapped, in enqueue order. -/
theorem fifo_per_window (ops : List (QueueOp α)) :
    (runQueueOps (ops ++ [QueueOp.drain]) []).1
      = wrapAll (enqueuedReqs ops) := by
  have hinv := runQueueOps_inv (ops ++ [QueueOp.drain]) []
  rw [runQueueOps_final_drain_empty ops []] at hinv
  simpa [enqueuedReqs_append, enqueuedReqs, wrapAll] using hinv

/-- C8. Update-nodes side-effect contract: `update_accessibility_nodes`
returns every input unchanged (its body is empty), and as a frame system it
leaves the entire frame state unchanged: no entity data, no registries, no
events. -/
theorem update_nodes_no_mutation
    (adapters : AccessKitAdapters) (focus : F) (primaryWindow : P)
    (nodes : N) (nodeEntities : NE) (st : FrameState α F P N NE) :
    update_accessibility_nodes adapters focus primaryWindow nodes nodeEntities
      = (adapters, focus, primaryWindow, nodes, nodeEntities) ∧
    runSystemBody SystemId.updateAccessibilityNodes st = some st :=
  ⟨rfl, runSystemBody_update st⟩

/-- C9. Prepare depends only on the entity: `prepare_accessibility_for_window`
gives the same registries for any winit window, name and
accessibility-requested arguments; the adapter stored is the unit
placeholder, and the handler stored is a fresh empty queue. -/
theorem prepare_depends_only_on_entity {W : Type u}
    (w1 w2 : W) (e : Entity) (n1 n2 : String) (r1 r2 : Bool)
    (a : AccessKitAdapters) (h : WinitActionRequestHandlers α) :
    prepare_accessibility_for_window w1 e n1 r1 a h
      = prepare_accessibility_for_window w2 e n2 r2 a h ∧
    mapGet (prepare_accessibility_for_window w1 e n1 r1 a h).1 e
      = some () ∧
    mapGet (prepare_accessibility_for_window w1 e n1 r1 a h).2 e
      = some WinitActionRequestHandler.new ∧
    WinitActionRequestHandler.new
      = (⟨false, []⟩ : Mutex (WinitActionRequestHandler α)) := by
  refine ⟨rfl, ?_, ?_, rfl⟩
  · exact mapGet_mapInsert a e ()
  · exact mapGet_mapInsert h e WinitActionRequestHandler.new

/-- C2. Cleanup precedence: `AccessKitPlugin::build` orders `window_closed`
before `poll_receivers` and before `update_accessibility_nodes`; hence for
every admissible execution order, when a `WindowClosed` signal for window `w`
is pending, the frame's drain emits exactly the requests of the post-close
registry — from which `w` has already been removed — so none of `w`'s
requests are emitted. -/
theorem cleanup_precedence (order : List SystemId)
    (st st' : FrameState α F P N NE) (ran : List SystemId) (w : Entity)
    (hv : validOrder order = true)
    (hw : st.closedEvents.contains w = true)
    (hnd : keyNodup st.handlers = true)
    (hr : runSchedule order st = some (st', ran)) :
    buildOrderConstraints.contains
      (SystemId.windowClosed, SystemId.pollReceivers) = true ∧
    buildOrderConstraints.contains
      (SystemId.windowClosed, SystemId.updateAccessibilityNodes) = true ∧
    st'.emitted = st.emitted ++ wrapAll (queueContents
      (window_closed st.adapters st.handlers st.closedEvents).2) ∧
    keyMem (window_closed st.adapters st.handlers st.closedEvents).2 w
      = false := by
  obtain ⟨evs, h', hp, hst, _⟩ := runSchedule_valid_some hv hr
  refine ⟨by decide, by decide, ?_, window_closed_removes hnd hw⟩
  rcases poll_receivers_some hp with ⟨he, _⟩
  rw [hst]
  simp [he]

/-- C5. Gating: in a completed frame, `update_accessibility_nodes` ran iff
both gating flags read true (the gating predicate is their conjunction),
while `window_closed` and `poll_receivers` ran regardless of the flags. -/
theorem gating (order : List SystemId) (st st' : FrameState α F P N NE)
    (ran : List SystemId)
    (hv : validOrder order = true)
    (hr : runSchedule order st = some (st', ran)) :
    ran.contains SystemId.updateAccessibilityNodes
      = (st.accessibilityRequested && st.manageAccessibilityUpdates) ∧
    ran.contains SystemId.windowClosed = true ∧
    ran.contains SystemId.pollReceivers = true ∧
    ∀ a m : Bool, should_update_accessibility_nodes a m = (a && m) := by
  obtain ⟨evs, h', _, _, hran⟩ := runSchedule_valid_some hv hr
  rcases validOrder_cases order hv with ho | ho <;> subst ho <;>
    rcases hb : (st.accessibilityRequested && st.manageAccessibilityUpdates)
      with _ | _ <;>
    simp [hran, should_update_accessibility_nodes, hb, List.contains_cons]

/-- C7. Idempotent close: a `WindowClosed` signal for a window absent from
both registries leaves them unchanged, the close system never emits events,
and removal is idempotent on any well-formed registry. -/
theorem idempotent_close {a : AccessKitAdapters}
    {h : WinitActionRequestHandlers α} {m : EntityHashMap β} {w w' : Entity}
    (ha : keyMem a w = false) (hh : keyMem h w = false)
    (hnd : keyNodup m = true) :
    window_closed a h [w] = (a, h) ∧
    (∀ st : FrameState α F P N NE,
      (runSystemBody SystemId.windowClosed st).map FrameState.emitted
        = some st.emitted) ∧
    mapRemove (mapRemove m w') w' = mapRemove m w' := by
  refine ⟨?_, ?_, ?_⟩
  · simp [window_closed, mapRemove_of_not_mem ha, mapRemove_of_not_mem hh]
  · intro st
    simp [runSystemBody]
  · refine mapRemove_of_not_mem ?_
    rw [keyMem_eq_contains, mapKeys_mapRemove]
    exact kremove_self_not_contains
      (by simpa [keyNodup] using hnd)

/-- C10. Drain frames the registries: one successful run of the
`poll_receivers` system leaves the adapter registry, the handler key list,
the pending close signals, both gating flags and all entity data unchanged;
its only effects are emptying the registered queues and appending the
wrapped requests to the event stream. -/
theorem drain_frames_registries {st st' : FrameState α F P N NE}
    (h : runSystemBody SystemId.pollReceivers st = some st') :
    st'.adapters = st.adapters ∧
    mapKeys st'.handlers = mapKeys st.handlers ∧
    st'.handlers = emptyQueues st.handlers ∧
    st'.emitted = st.emitted ++ wrapAll (queueContents st.handlers) ∧
    st'.closedEvents = st.closedEvents ∧
    st'.accessibilityRequested = st.accessibilityRequested ∧
    st'.manageAccessibilityUpdates = st.manageAccessibilityUpdates ∧
    st'.focus = st.focus ∧ st'.primaryWindow = st.primaryWindow ∧
    st'.nodes = st.nodes ∧ st'.nodeEntities = st.nodeEntities := by
  simp only [runSystemBody] at h
  rcases hp : poll_receivers st.handlers with _ | ⟨evs, h2⟩
  · rw [hp] at h; simp at h
  · rw [hp] at h
    simp at h
    rcases poll_receivers_some hp with ⟨he, hh⟩
    rw [← h]
    simp [he, hh, mapKeys_emptyQueues]

/-- C6 counterexample: a registry whose first queue mutex is poisoned makes
`poll_receivers` panic (`lock().unwrap()`), so the claim that the drain
system does not panic and still drains the remaining windows is false: the
non-poisoned queue of window 1 is not drained. -/
theorem poisoned_drain_panics_cex :
    poll_receivers
        [(0, ⟨true, [5]⟩), (1, ⟨false, ([7] : List Nat)⟩)] = none ∧
    (⟨true, [5]⟩ : Mutex (WinitActionRequestHandler Nat)).poisoned = true ∧
    (⟨false, [7]⟩ : Mutex (WinitActionRequestHandler Nat)).val ≠ [] :=
  ⟨rfl, rfl, by decide⟩

/-- C6 amended: whenever some registered queue's mutex is poisoned, one run
of `poll_receivers` panics — `handler.lock().unwrap()` propagates the poison
error — and so drains nothing in that run. -/
theorem poisoned_drain_panics {hs : WinitActionRequestHandlers α}
    (h : ∃ p ∈ hs, p.2.poisoned = true) :
    poll_receivers hs = none :=
  poll_receivers_poisoned h

/-! ### Witnesses -/

/-- Witness for C2 at `sampleCloseFrame`: the hypotheses hold and the frame
emits only window 2's request while window 1 is gone from the post-close
registry. -/
theorem cleanup_precedence_witness :
    validOrder [SystemId.windowClosed, SystemId.pollReceivers,
      SystemId.updateAccessibilityNodes] = true ∧
    sampleCloseFrame.closedEvents.contains 1 = true ∧
    keyNodup sampleCloseFrame.handlers = true ∧
    runSchedule [SystemId.windowClosed, SystemId.pollReceivers,
        SystemId.updateAccessibilityNodes] sampleCloseFrame
      = some (sampleCloseFrameAfter,
          [SystemId.windowClosed, SystemId.pollReceivers,
           SystemId.updateAccessibilityNodes]) ∧
    (buildOrderConstraints.contains
        (SystemId.windowClosed, SystemId.pollReceivers) = true ∧
     buildOrderConstraints.contains
        (SystemId.windowClosed, SystemId.updateAccessibilityNodes) = true ∧
     sampleCloseFrameAfter.emitted = sampleCloseFrame.emitted ++
       wrapAll (queueContents (window_closed sampleCloseFrame.adapters
         sampleCloseFrame.handlers sampleCloseFrame.closedEvents).2) ∧
     keyMem (window_closed sampleCloseFrame.adapters sampleCloseFrame.handlers
       sampleCloseFrame.closedEvents).2 1 = false) :=
  ⟨by decide, by decide, by decide, by rfl,
   cleanup_precedence
     [SystemId.windowClosed, SystemId.pollReceivers,
       SystemId.updateAccessibilityNodes]
     sampleCloseFrame sampleCloseFrameAfter
     [SystemId.windowClosed, SystemId.pollReceivers,
       SystemId.updateAccessibilityNodes] 1
     (by decide) (by decide) (by decide) (by rfl)⟩

/-- Witness for C3 on two non-poisoned queues: all pending requests come out
wrapped in order and both queues are left registered and empty. -/
theorem drain_completeness_witness :
    (∀ p ∈ ([(1, ⟨false, [1, 2]⟩), (2, ⟨false, [3]⟩)] :
        WinitActionRequestHandlers Nat), p.2.poisoned = false) ∧
    (poll_receivers ([(1, ⟨false, [1, 2]⟩), (2, ⟨false, [3]⟩)] :
        WinitActionRequestHandlers Nat)
      = some (wrapAll (queueContents
          ([(1, ⟨false, [1, 2]⟩), (2, ⟨false, [3]⟩)] :
            WinitActionRequestHandlers Nat)),
          emptyQueues [(1, ⟨false, [1, 2]⟩), (2, ⟨false, [3]⟩)]) ∧
     mapKeys (emptyQueues ([(1, ⟨false, [1, 2]⟩), (2, ⟨false, [3]⟩)] :
        WinitActionRequestHandlers Nat))
       = mapKeys ([(1, ⟨false, [1, 2]⟩), (2, ⟨false, [3]⟩)] :
          WinitActionRequestHandlers Nat) ∧
     ∀ p ∈ emptyQueues ([(1, ⟨false, [1, 2]⟩), (2, ⟨false, [3]⟩)] :
        WinitActionRequestHandlers Nat), p.2.val = []) :=
  ⟨by decide, drain_completeness _ (by decide)⟩

/-- Witness for C5 at `sampleCloseFrame` (both flags true): all three systems
ran, and the gating predicate agreed with the conjunction of the flags. -/
theorem gating_witness :
    validOrder [SystemId.windowClosed, SystemId.pollReceivers,
      SystemId.updateAccessibilityNodes] = true ∧
    runSchedule [SystemId.windowClosed, SystemId.pollReceivers,
        SystemId.updateAccessibilityNodes] sampleCloseFrame
      = some (sampleCloseFrameAfter,
          [SystemId.windowClosed, SystemId.pollReceivers,
           SystemId.updateAccessibilityNodes]) ∧
    ([SystemId.windowClosed, SystemId.pollReceivers,
        SystemId.updateAccessibilityNodes].contains
          SystemId.updateAccessibilityNodes
      = (sampleCloseFrame.accessibilityRequested &&
          sampleCloseFrame.manageAccessibilityUpdates) ∧
     [SystemId.windowClosed, SystemId.pollReceivers,
        SystemId.updateAccessibilityNodes].contains SystemId.windowClosed
       = true ∧
     [SystemId.windowClosed, SystemId.pollReceivers,
        SystemId.updateAccessibilityNodes].contains SystemId.pollReceivers
       = true ∧
     ∀ a m : Bool, should_update_accessibility_nodes a m = (a && m)) :=
  ⟨by decide, by rfl,
   gating
     [SystemId.windowClosed, SystemId.pollReceivers,
       SystemId.updateAccessibilityNodes]
     sampleCloseFrame sampleCloseFrameAfter
     [SystemId.windowClosed, SystemId.pollReceivers,
       SystemId.updateAccessibilityNodes]
     (by decide) (by rfl)⟩

/-- Witness for C6's amended claim: one poisoned queue makes the whole drain
run panic. -/
theorem poisoned_drain_panics_witness :
    (∃ p ∈ ([(0, ⟨true, [5]⟩)] : WinitActionRequestHandlers Nat),
      p.2.poisoned = true) ∧
    poll_receivers ([(0, ⟨true, [5]⟩)] : WinitActionRequestHandlers Nat)
      = none :=
  ⟨⟨(0, ⟨true, [5]⟩), List.Mem.head _, rfl⟩,
   poisoned_drain_panics ⟨(0, ⟨true, [5]⟩), List.Mem.head _, rfl⟩⟩

/-- Witness for C7: closing the unknown window 5 leaves the registries
unchanged, and removing window 1 twice equals removing it once. -/
theorem idempotent_close_witness :
    keyMem ([(2, ())] : AccessKitAdapters) 5 = false ∧
    keyMem ([(2, Mutex.mk false ([] : List Nat))] :
      WinitActionRequestHandlers Nat) 5 = false ∧
    keyNodup ([(1, ()), (3, ())] : EntityHashMap Unit) = true ∧
    (window_closed [(2, ())] [(2, Mutex.mk false ([] : List Nat))] [5]
      = ([(2, ())], [(2, Mutex.mk false [])]) ∧
     (∀ st : FrameState Nat Unit Unit Unit Unit,
       (runSystemBody SystemId.windowClosed st).map FrameState.emitted
         = some st.emitted) ∧
     mapRemove (mapRemove ([(1, ()), (3, ())] : EntityHashMap Unit) 1) 1
       = mapRemove [(1, ()), (3, ())] 1) :=
  ⟨by decide, by decide, by decide,
   idempotent_close (by decide) (by decide) (by decide)⟩

/-- Witness for C10 at `sampleDrainFrame`: the drain system empties window
1's queue, emits its request wrapped, and changes nothing else. -/
theorem drain_frames_registries_witness :
    runSystemBody SystemId.pollReceivers sampleDrainFrame
      = some sampleDrainFrameAfter ∧
    (sampleDrainFrameAfter.adapters = sampleDrainFrame.adapters ∧
     mapKeys sampleDrainFrameAfter.handlers
       = mapKeys sampleDrainFrame.handlers ∧
     sampleDrainFrameAfter.handlers = emptyQueues sampleDrainFrame.handlers ∧
     sampleDrainFrameAfter.emitted = sampleDrainFrame.emitted ++
       wrapAll (queueContents sampleDrainFrame.handlers) ∧
     sampleDrainFrameAfter.closedEvents = sampleDrainFrame.closedEvents ∧
     sampleDrainFrameAfter.accessibilityRequested
       = sampleDrainFrame.accessibilityRequested ∧
     sampleDrainFrameAfter.manageAccessibilityUpdates
       = sampleDrainFrame.manageAccessibilityUpdates ∧
     sampleDrainFrameAfter.focus = sampleDrainFrame.focus ∧
     sampleDrainFrameAfter.primaryWindow = sampleDrainFrame.primaryWindow ∧
     sampleDrainFrameAfter.nodes = sampleDrainFrame.nodes ∧
     sampleDrainFrameAfter.nodeEntities = sampleDrainFrame.nodeEntities) :=
  ⟨by rfl, drain_frames_registries (by rfl)⟩

end BevyWinitAccessibility
